import Mathlib

/-!
# Verification of the PocketQuant market-data pipeline core

Shallow embedding of the core components of the repository:

* the persistent bar store (`src/scraper/utils/build_db.py`):
  per-instrument tables upserted by the composite key (DATE, INTERVAL)
  via `INSERT OR REPLACE`, and the coverage query
  `get_ticker_date_range`;
* the cache-aware fetch orchestrator (`src/scraper/setup.py`,
  `BaseSetup.__init__` and `BaseSetup._fetch_data`): the per-ticker
  fetch/no-fetch decision against stored coverage, and the scraper
  dispatch with its configuration errors;
* the feature merger (`src/scraper/utils/feature_builder.py`):
  the full outer join of indicator outputs on DATE;
* the adaptive alpha/beta estimator
  (`src/backtester/backtester.py`, `calculate_alpha_beta`): steps 3-7
  of the algorithm, from the aligned return series onward.

Dates are modelled as natural numbers (the stored text timestamps are
in a fixed-width `%Y-%m-%d %H:%M:%S` format, so lexicographic order on
the strings is order-isomorphic to chronological order).  Numeric bar
values are modelled as exact rationals.
-/

/-! ## Persistent bar store (`build_db.py`) -/

/-- One row of an instrument table: the composite primary key
`(DATE, INTERVAL)` plus the remaining column values. -/
structure BRow where
  date : Nat
  ival : String
  payload : List String
deriving Repr, DecidableEq

/-- The composite primary key `(DATE, INTERVAL)` of a row. -/
def rkey (r : BRow) : Nat × String := (r.date, r.ival)

/-- Whether the table already holds a row with the key of `r`. -/
def containsKey (t : List BRow) (k : Nat × String) : Bool :=
  t.any (fun x => rkey x = k)

/-- One `INSERT OR REPLACE` of a single row into an instrument table:
if a row with the same `(DATE, INTERVAL)` key exists it is replaced
(last-write-wins), otherwise the row is added.  Embeds the effect of
the SQLite statement `INSERT OR REPLACE INTO "{table_name}" ...` with
`PRIMARY KEY(DATE, INTERVAL)` on the logical table state. -/
def upsertRow (t : List BRow) (r : BRow) : List BRow :=
  if containsKey t (rkey r) then
    t.map (fun x => if rkey x = rkey r then r else x)
  else
    t ++ [r]

/-- Embeds `write_data_to_db` restricted to a single instrument table: the
`cursor.executemany(insert_sql, df.values.tolist())` loop upserts the
batch rows in order. -/
def write_data_to_db (t : List BRow) (batch : List BRow) : List BRow :=
  batch.foldl upsertRow t

/-- The keys of a table, in row order. -/
def keysOf (t : List BRow) : List (Nat × String) := t.map rkey

/-- Lookup of the (first) row with a given key. -/
def findKey (t : List BRow) (k : Nat × String) : Option BRow :=
  t.find? (fun x => rkey x = k)

/-- Last row of a batch carrying a given key (the one that wins the
upsert), or `none`. -/
def lastWith (b : List BRow) (k : Nat × String) : Option BRow :=
  findKey b.reverse k

/-- A database file: a list of tables keyed by upper-cased ticker. -/
abbrev DBState := List (String × List BRow)

/-- Character-wise upper-casing, embedding Python `str.upper()` on the
ASCII ticker symbols the system uses. -/
def upperStr (s : String) : String := String.mk (s.data.map Char.toUpper)

/-- Character-wise lower-casing, embedding Python `str.lower()`. -/
def lowerStr (s : String) : String := String.mk (s.data.map Char.toLower)

/-- Embeds `get_ticker_date_range(db_path, ticker, interval="1d")`: `(None,
None)` when the ticker's table does not exist, otherwise the SQL
`MIN(DATE), MAX(DATE)` over the rows whose `INTERVAL` column equals the
requested interval. -/
def get_ticker_date_range (db : DBState) (ticker : String)
    (ival : String := "1d") : Option Nat × Option Nat :=
  match List.find? (fun p => p.1 = upperStr ticker) db with
  | none => (none, none)
  | some (_, rows) =>
      let ds := (rows.filter (fun r => r.ival = ival)).map BRow.date
      (ds.min?, ds.max?)

/-! ## Cache-aware fetch orchestrator (`setup.py`) -/

/-- The per-ticker fetch decision of `BaseSetup._fetch_data`: `true`
("data_needed") when no coverage exists, or the requested start (when
given) precedes the stored min, or the requested end exceeds the
stored max plus the one-day buffer.  Dates are in days. -/
def needsFetch (cov : Option Nat × Option Nat) (reqStart : Option Nat)
    (reqEnd : Nat) : Bool :=
  match cov with
  | (some dbMin, some dbMax) =>
      (match reqStart with
       | some s => decide (s < dbMin)
       | none => false) || decide (dbMax + 1 < reqEnd)
  | _ => true

/-- The coverage actually consulted by `_fetch_data` for a ticker: the
call `get_ticker_date_range(self.db_path, ticker)` omits the interval
argument, whatever `self.interval` is configured to. -/
def coverageConsulted (db : DBState) (ticker : String)
    (_configuredIval : String) : Option Nat × Option Nat :=
  get_ticker_date_range db ticker

/-- The `tickers_to_fetch` list gathered by `_fetch_data`: the tickers
whose coverage decision is "data_needed".  This is the exact argument
given to the external scraper; the scraper is constructed and invoked
only when this list is nonempty. -/
def tickersToFetch (covOf : String → Option Nat × Option Nat)
    (tickers : List String) (reqStart : Option Nat) (reqEnd : Nat) :
    List String :=
  tickers.filter (fun t => needsFetch (covOf t) reqStart reqEnd)

/-- The tickers served straight from the store (the `else` branch that
calls `read_by_date` and stores the frame in `self.data_dict`). -/
def servedFromStore (covOf : String → Option Nat × Option Nat)
    (tickers : List String) (reqStart : Option Nat) (reqEnd : Nat) :
    List String :=
  tickers.filter (fun t => !needsFetch (covOf t) reqStart reqEnd)

/-- The configuration state assembled by `BaseSetup.__init__` (the
fields the verified claims touch; the remaining fields are plain
assignments of the same shape). -/
structure SetupConfig where
  tickers : List String
  scraper_type : String
  api_key : Option String
  start_date : Option Nat
  end_date : Option Nat
  ival : String
deriving Repr, DecidableEq

/-- Which scraper `_fetch_data` constructs. -/
inductive ScraperChoice where
  | yfinance
  | alphavantage
deriving Repr, DecidableEq

/-- The scraper dispatch inside `BaseSetup._fetch_data` (executed only
when `tickers_to_fetch` is nonempty): unknown `scraper_type` raises
`ValueError`, and the AlphaVantage branch raises when `self.api_key`
is falsy (absent or empty). -/
def selectScraper (scraper_type : String) (api_key : Option String) :
    Except String ScraperChoice :=
  if lowerStr scraper_type = "yfinance" then .ok .yfinance
  else if lowerStr scraper_type = "alphavantage" then
    match api_key with
    | none => .error "API key required for AlphaVantage scraper"
    | some k =>
        if k = "" then .error "API key required for AlphaVantage scraper"
        else .ok .alphavantage
  else .error "scraper_type must be yfinance or alphavantage"

/-- Embeds `BaseSetup.__init__`: the constructor only stores its arguments
(plus defaults) and performs no validation of `scraper_type` or
`api_key` — its body contains no `raise`, so it succeeds on every
input.  The `Except` result type records that no exception escapes. -/
def baseSetupInit (tickers : List String) (scraper_type : String)
    (api_key : Option String) (start_date end_date : Option Nat)
    (ival : String) : Except String SetupConfig :=
  .ok { tickers := tickers, scraper_type := scraper_type,
        api_key := api_key, start_date := start_date,
        end_date := end_date, ival := ival }

/-- The fetch phase of `_fetch_data` up to scraper construction: build
`tickers_to_fetch` from coverage; when it is nonempty, dispatch on the
scraper type (raising the configuration errors); return the list of
tickers handed to the external fetch call (empty when everything was
served from the store). -/
def fetchDataDispatch (cfg : SetupConfig)
    (covOf : String → Option Nat × Option Nat) (reqEnd : Nat) :
    Except String (List String) :=
  let plan := tickersToFetch covOf cfg.tickers cfg.start_date reqEnd
  if plan.isEmpty then .ok []
  else
    match selectScraper cfg.scraper_type cfg.api_key with
    | .error e => .error e
    | .ok _ => .ok plan

/-! ## Feature merger (`feature_builder.py`) -/

/-- One indicator output table: a number of value columns and one row
per DATE, each row holding the DATE key and the column values
(`none` models a NaN warm-up cell). -/
structure FTable where
  ncols : Nat
  rows : List (Nat × List (Option ℚ))
deriving Repr, DecidableEq

/-- The DATE axis of a feature table, in row order. -/
def fdates (t : FTable) : List Nat := t.rows.map Prod.fst

/-- Row lookup by DATE. -/
def flookup (t : FTable) (d : Nat) : Option (List (Option ℚ)) :=
  (t.rows.find? (fun p => p.1 = d)).map Prod.snd

/-- Embeds `pd.merge(left, right, on="DATE", how="outer")` for tables whose
DATE keys are unique: every left row is kept and extended with the
matching right columns (or NaN padding), and the right rows whose DATE
does not occur on the left are appended with NaN padding on the left
columns. -/
def mergeOuter (l r : FTable) : FTable :=
  { ncols := l.ncols + r.ncols
    rows :=
      l.rows.map (fun p =>
        (p.1, p.2 ++ ((flookup r p.1).getD (List.replicate r.ncols none))))
      ++ (r.rows.filter (fun p => !(fdates l).contains p.1)).map
          (fun p => (p.1, List.replicate l.ncols none ++ p.2)) }

/-- The merge step of `build_features`:
`reduce(lambda left, right: pd.merge(left, right, on="DATE",
how="outer"), features)`.  `reduce` on an empty list raises, hence the
`Option`. -/
def build_features_merge (tables : List FTable) : Option FTable :=
  match tables with
  | [] => none
  | t :: rest => some (rest.foldl mergeOuter t)

/-! ## Adaptive alpha/beta estimator (`backtester.py`)

`Backtester.calculate_alpha_beta` is embedded from step 3 of its body
onward ("# 3. Align indices"): the inputs are the already-resampled
per-period return series `strategy_rets` and `benchmark_rets`, each a
timestamp-indexed series with unique timestamps.  Arithmetic is exact
rational arithmetic; the float literals `1e-6` and `1e-9` are taken at
their decimal values. -/

/-- A timestamp-indexed return series (unique timestamps). -/
abbrev RSeries := List (Nat × ℚ)

/-- The timestamp index of a series. -/
def sIdx (s : RSeries) : List Nat := s.map Prod.fst

/-- Embeds `series.loc[k]` for a timestamp known to be present (0 otherwise;
every use below is at a timestamp of the series). -/
def sGet (s : RSeries) (k : Nat) : ℚ :=
  ((List.find? (fun p => p.1 = k) s).map Prod.snd).getD 0

/-- Embeds `idx = strategy_rets.index.intersection(benchmark_rets.index)`:
the timestamps of the strategy series also present in the benchmark
series, in strategy order. -/
def idxOf (sR bR : RSeries) : List Nat :=
  (sIdx sR).filter (fun k => (sIdx bR).contains k)

/-- Embeds `full_Y = strategy_rets.loc[idx]` (values). -/
def fullY (sR bR : RSeries) : List ℚ := (idxOf sR bR).map (sGet sR)

/-- Embeds `full_X = benchmark_rets.loc[idx]` (values). -/
def fullX (sR bR : RSeries) : List ℚ := (idxOf sR bR).map (sGet bR)

/-- Mean of a series of values (`Series.mean`). -/
def meanQ (l : List ℚ) : ℚ := l.sum / (l.length : ℚ)

/-- Sample variance with `ddof=1` (`Series.var`), as used by pandas. -/
def svar (l : List ℚ) : ℚ :=
  ((l.map (fun x => (x - meanQ l) ^ 2)).sum) / ((l.length : ℚ) - 1)

/-- Sample covariance with `ddof=1` (`Series.cov`) of two equal-length
value lists. -/
def scov (a b : List ℚ) : ℚ :=
  (((a.zip b).map (fun p => (p.1 - meanQ a) * (p.2 - meanQ b))).sum) /
    ((a.length : ℚ) - 1)

/-- Embeds `cov_full = full_Y.cov(full_X)`. -/
def covFull (sR bR : RSeries) : ℚ := scov (fullY sR bR) (fullX sR bR)

/-- Embeds `var_full = full_X.var()`. -/
def varFull (sR bR : RSeries) : ℚ := svar (fullX sR bR)

/-- Embeds `beta_full = cov_full / var_full`. -/
def betaFull (sR bR : RSeries) : ℚ := covFull sR bR / varFull sR bR

/-- Embeds `alpha_intercept = full_Y.mean() - beta_full * full_X.mean()`. -/
def alphaIntercept (sR bR : RSeries) : ℚ :=
  meanQ (fullY sR bR) - betaFull sR bR * meanQ (fullX sR bR)

/-- Embeds `residuals = full_Y - (alpha_intercept + beta_full * full_X)`. -/
def residualsOf (sR bR : RSeries) : List ℚ :=
  ((fullY sR bR).zip (fullX sR bR)).map
    (fun p => p.1 - (alphaIntercept sR bR + betaFull sR bR * p.2))

/-- Embeds `sigma_epsilon ** 2`: the sample variance of the residuals
(`residuals.std()` squared; only the square enters the formula). -/
def varEps (sR bR : RSeries) : ℚ := svar (residualsOf sR bR)

/-- Embeds `target_se`: `error_tolerance` itself when `abs(beta_full) < 1e-6`,
else `error_tolerance * abs(beta_full)`. -/
def targetSe (sR bR : RSeries) (tol : ℚ) : ℚ :=
  if |betaFull sR bR| < 1 / 1000000 then tol else tol * |betaFull sR bR|

/-- Embeds `required_n`: `len(full_X)` when `target_se < 1e-9`, else
`int((sigma_epsilon / (sigma_m * target_se)) ** 2)`.  Since
`sigma_epsilon ** 2 = varEps` and `sigma_m ** 2 = varFull`, the squared
quotient equals `varEps / (varFull * target_se ** 2)` exactly, and
`int` truncation coincides with the floor on this nonnegative value. -/
def requiredN (sR bR : RSeries) (tol : ℚ) : Nat :=
  if targetSe sR bR tol < 1 / 1000000000 then (fullX sR bR).length
  else (⌊varEps sR bR / (varFull sR bR * targetSe sR bR tol ^ 2)⌋).toNat

/-- Embeds `n_bars = max(30, min(len(full_X), required_n))`. -/
def nBars (sR bR : RSeries) (tol : ℚ) : Nat :=
  max 30 (min (fullX sR bR).length (requiredN sR bR tol))

/-- Embeds `final_Y = full_Y.iloc[-n_bars:]` (the whole series when `n_bars`
exceeds its length). -/
def finalY (sR bR : RSeries) (tol : ℚ) : List ℚ :=
  (fullY sR bR).drop ((fullY sR bR).length - nBars sR bR tol)

/-- Embeds `final_X = full_X.iloc[-n_bars:]`. -/
def finalX (sR bR : RSeries) (tol : ℚ) : List ℚ :=
  (fullX sR bR).drop ((fullX sR bR).length - nBars sR bR tol)

/-- Embeds `var_final = final_X.var()`. -/
def varFinal (sR bR : RSeries) (tol : ℚ) : ℚ := svar (finalX sR bR tol)

/-- Embeds `beta_final`: 0 when `var_final == 0`, else
`cov_final / var_final`. -/
def betaFinal (sR bR : RSeries) (tol : ℚ) : ℚ :=
  if varFinal sR bR tol = 0 then 0
  else scov (finalY sR bR tol) (finalX sR bR tol) / varFinal sR bR tol

/-- Embeds `alpha_per_period = final_Y.mean() - beta_final * final_X.mean()`. -/
def alphaPerPeriod (sR bR : RSeries) (tol : ℚ) : ℚ :=
  meanQ (finalY sR bR tol) - betaFinal sR bR tol * meanQ (finalX sR bR tol)

/-- The annualization constant keyed by the requested frequency. -/
def periodsPerYear (freq : String) : ℚ :=
  if freq = "D" then 252
  else if freq = "W" then 52
  else if freq = "M" then 12
  else 252

/-- The estimator result record returned on success. -/
structure AlphaBetaResult where
  beta : ℚ
  alpha : ℚ
  alpha_per_period : ℚ
  n_bars_used : Nat
  required_n : Nat
  beta_full : ℚ
deriving Repr, DecidableEq

/-- Steps 3-7 of `Backtester.calculate_alpha_beta` on the aligned
return series: fewer than 10 overlapping observations, or 10-29 with
only a printed note, then the zero-variance guard, then the
adaptive-window regression.  A Python `return None` with a printed
reason is modelled as `.error reason`. -/
def calculate_alpha_beta (sR bR : RSeries) (freq : String) (tol : ℚ) :
    Except String AlphaBetaResult :=
  if (idxOf sR bR).length < 10 then .error "insufficient data"
  else if varFull sR bR = 0 then .error "Benchmark variance is 0."
  else .ok
    { beta := betaFinal sR bR tol
      alpha := alphaPerPeriod sR bR tol * periodsPerYear freq
      alpha_per_period := alphaPerPeriod sR bR tol
      n_bars_used := nBars sR bR tol
      required_n := requiredN sR bR tol
      beta_full := betaFull sR bR }

deriving instance DecidableEq for Except

/-- The trailing window of the most recent `n` entries of a value
list (all of them when `n` exceeds the length), as selected by
`iloc[-n:]`. -/
def lastN (l : List ℚ) (n : Nat) : List ℚ := l.drop (l.length - n)

/-- Simple-regression slope on a pair of aligned value lists, with the
zero-variance guard used by the final-window recomputation.  Stated
from the spec wording "recompute beta on only the most recent N
observations" for comparison with the embedded `betaFinal`. -/
def regressBeta (Y X : List ℚ) : ℚ :=
  if svar X = 0 then 0 else scov Y X / svar X

/-- Builds a return series indexed consecutively from 0, for concrete
test inputs. -/
def mkSeries (vals : List ℚ) : RSeries :=
  vals.enum.map (fun p => (p.1, p.2))

/-- A concrete database with one table "SPY" holding a single bar
stored under the "1h" interval and none under "1d". -/
def demoDB : DBState := [("SPY", [⟨5, "1h", []⟩])]

/-- A coverage function with no stored data for any ticker. -/
def covEmpty : String → Option Nat × Option Nat := fun _ => (none, none)

/-- A configuration whose scraper type is neither known value. -/
def cfgBogus : SetupConfig :=
  { tickers := ["AAPL"], scraper_type := "bogus", api_key := none,
    start_date := none, end_date := none, ival := "1d" }

/-- Concrete alternating benchmark returns (12 observations). -/
def xAlt : List ℚ := [1, 0, 1, 0, 1, 0, 1, 0, 1, 0, 1, 0]

/-- Concrete subject returns: `xAlt` plus a zero-covariance noise
pattern of equal variance, so the full-sample beta is 1 and the
residual variance equals the benchmark variance. -/
def yAlt : List ℚ := [2, 1, 1, 0, 2, 1, 1, 0, 2, 1, 1, 0]

/-- Concrete benchmark returns with a 15-observation overlap. -/
def xShort : List ℚ := [1, 0, 1, 0, 1, 0, 1, 0, 1, 0, 1, 0, 1, 0, 1]

/-- Concrete subject returns with a 15-observation overlap. -/
def yShort : List ℚ := [1, 1, 0, 0, 1, 1, 0, 0, 1, 1, 0, 0, 1, 1, 0]

/-- Concrete returns: one outlier followed by 30 constant values, so
the full-sample variance is nonzero while the trailing 30-observation
window is constant. -/
def xConst31 : List ℚ := 1 :: List.replicate 30 (1 / 100)

/-- The series built from `xConst31`, used as both subject and
benchmark in concrete estimator runs. -/
def sConst31 : RSeries := mkSeries xConst31

/-- The estimator result on `(sConst31, sConst31)` with frequency "D"
and tolerance 1/5: a perfect fit, so `required_n` is 0, clamped to 30,
and the constant trailing window zeroes the final beta. -/
def rConst31 : AlphaBetaResult :=
  { beta := 0, alpha := 63 / 25, alpha_per_period := 1 / 100,
    n_bars_used := 30, required_n := 0, beta_full := 1 }

/-! ## Helper lemmas: store tables -/

/-- Replacing a row by the incoming row with the same key keeps the
position's key. -/
theorem rkey_replace (r x : BRow) :
    rkey (if rkey x = rkey r then r else x) = rkey x := by
  by_cases h : rkey x = rkey r
  · simp [h]
  · simp [h]

theorem findKey_cons (x : BRow) (t : List BRow) (k : Nat × String) :
    findKey (x :: t) k = if rkey x = k then some x else findKey t k := by
  by_cases h : rkey x = k
  · simp [findKey, List.find?_cons_of_pos, h]
  · simp [findKey, List.find?_cons_of_neg, h]

theorem mem_keysOf (t : List BRow) (k : Nat × String) :
    k ∈ keysOf t ↔ containsKey t k = true := by
  simp [keysOf, containsKey, List.any_eq_true, List.mem_map]

theorem findKey_eq_none_iff (t : List BRow) (k : Nat × String) :
    findKey t k = none ↔ k ∉ keysOf t := by
  simp [findKey, List.find?_eq_none, keysOf, List.mem_map]

theorem containsKey_false_findKey (t : List BRow) (k : Nat × String)
    (h : containsKey t k = false) : findKey t k = none := by
  rw [findKey_eq_none_iff, mem_keysOf, h]; simp

theorem containsKey_true_findKey (t : List BRow) (k : Nat × String)
    (h : containsKey t k = true) :
    ∃ x, findKey t k = some x ∧ rkey x = k := by
  have : ∃ x ∈ t, rkey x = k := by
    simpa [containsKey, List.any_eq_true] using h
  rcases this with ⟨x, hx, hk⟩
  have hs : (findKey t k).isSome = true := by
    rw [findKey, List.find?_isSome]
    exact ⟨x, hx, by simp [hk]⟩
  rcases Option.isSome_iff_exists.mp hs with ⟨y, hy⟩
  refine ⟨y, hy, ?_⟩
  have := List.find?_some hy
  simpa using this

theorem findKey_map_replace (t : List BRow) (r : BRow) (k : Nat × String) :
    findKey (t.map fun x => if rkey x = rkey r then r else x) k =
      if k = rkey r then (findKey t (rkey r)).map (fun _ => r)
      else findKey t k := by
  induction t with
  | nil => by_cases h : k = rkey r <;> simp [findKey, h]
  | cons x t ih =>
      by_cases hk : k = rkey r
      · subst hk
        by_cases hxr : rkey x = rkey r <;>
          simp [List.map_cons, findKey_cons, rkey_replace, hxr, ih]
      · have hk' : ¬ rkey r = k := fun h => hk h.symm
        by_cases hxr : rkey x = rkey r
        · simp [List.map_cons, findKey_cons, rkey_replace, hxr, ih, hk, hk']
        · simp [List.map_cons, findKey_cons, rkey_replace, hxr, ih, hk]

theorem findKey_append (t u : List BRow) (k : Nat × String) :
    findKey (t ++ u) k = (findKey t k).or (findKey u k) := by
  simp [findKey, List.find?_append]

theorem findKey_upsertRow (t : List BRow) (r : BRow) (k : Nat × String) :
    findKey (upsertRow t r) k =
      if k = rkey r then some r else findKey t k := by
  unfold upsertRow
  by_cases hc : containsKey t (rkey r)
  · rw [if_pos hc, findKey_map_replace]
    by_cases hk : k = rkey r
    · rw [if_pos hk, if_pos hk]
      obtain ⟨x, hx, -⟩ := containsKey_true_findKey t (rkey r) hc
      rw [hx]; rfl
    · rw [if_neg hk, if_neg hk]
  · have hc' : containsKey t (rkey r) = false := by
      simpa using hc
    rw [if_neg hc, findKey_append]
    by_cases hk : k = rkey r
    · rw [if_pos hk, hk, containsKey_false_findKey t (rkey r) hc',
        findKey_cons, if_pos rfl]
      rfl
    · rw [if_neg hk, findKey_cons, if_neg (fun h => hk h.symm)]
      simp [findKey]

theorem lastWith_cons (r : BRow) (b : List BRow) (k : Nat × String) :
    lastWith (r :: b) k =
      (lastWith b k).or (if rkey r = k then some r else none) := by
  unfold lastWith
  rw [List.reverse_cons, findKey_append]
  congr 1
  rw [findKey_cons, findKey]
  by_cases h : rkey r = k <;> simp [h]

theorem findKey_write (t b : List BRow) (k : Nat × String) :
    findKey (write_data_to_db t b) k =
      (lastWith b k).or (findKey t k) := by
  induction b generalizing t with
  | nil => simp [write_data_to_db, lastWith, findKey]
  | cons r b ih =>
      show findKey (write_data_to_db (upsertRow t r) b) k = _
      rw [ih, findKey_upsertRow, lastWith_cons, Option.or_assoc]
      congr 1
      by_cases hk : k = rkey r
      · rw [if_pos hk, if_pos hk.symm]; rfl
      · rw [if_neg hk, if_neg (fun h => hk h.symm)]; rfl

theorem keysOf_upsertRow_of_contains (t : List BRow) (r : BRow)
    (hc : containsKey t (rkey r) = true) :
    keysOf (upsertRow t r) = keysOf t := by
  unfold upsertRow
  rw [if_pos hc]
  unfold keysOf
  rw [List.map_map]
  apply List.map_congr_left
  intro x _
  exact rkey_replace r x

theorem containsKey_upsertRow_mono (t : List BRow) (r : BRow)
    (k : Nat × String) (h : containsKey t k = true) :
    containsKey (upsertRow t r) k = true := by
  obtain ⟨x, hx, hk⟩ := containsKey_true_findKey t k h
  rw [← mem_keysOf]
  by_cases he : k = rkey r
  · have : findKey (upsertRow t r) k = some r := by
      rw [findKey_upsertRow, if_pos he]
    rw [mem_keysOf]
    have hs := List.find?_some this
    rw [← mem_keysOf]
    have hmem := List.mem_of_find?_eq_some this
    simp only [keysOf, List.mem_map]
    exact ⟨r, hmem, by simpa using hs⟩
  · have : findKey (upsertRow t r) k = some x := by
      rw [findKey_upsertRow, if_neg he, hx]
    have hmem := List.mem_of_find?_eq_some this
    simp only [keysOf, List.mem_map]
    exact ⟨x, hmem, hk⟩

theorem keysOf_write_of_covered (t : List BRow) (b : List BRow)
    (h : ∀ r ∈ b, containsKey t (rkey r) = true) :
    keysOf (write_data_to_db t b) = keysOf t := by
  induction b generalizing t with
  | nil => rfl
  | cons r b ih =>
      show keysOf (write_data_to_db (upsertRow t r) b) = keysOf t
      rw [ih (upsertRow t r) ?cov,
        keysOf_upsertRow_of_contains t r (h r (List.mem_cons_self r b))]
      case cov =>
        intro s hs
        exact containsKey_upsertRow_mono t r (rkey s)
          (h s (List.mem_cons_of_mem r hs))

theorem containsKey_write_self (t : List BRow) (b : List BRow)
    (r : BRow) (hr : r ∈ b) :
    containsKey (write_data_to_db t b) (rkey r) = true := by
  rw [← mem_keysOf]
  have hlw : (lastWith b (rkey r)).isSome = true := by
    rw [lastWith, findKey, List.find?_isSome]
    exact ⟨r, List.mem_reverse.mpr hr, by simp⟩
  rcases Option.isSome_iff_exists.mp hlw with ⟨x, hx⟩
  have : findKey (write_data_to_db t b) (rkey r) = some x := by
    rw [findKey_write, hx]; rfl
  have hmem := List.mem_of_find?_eq_some this
  have hkx := List.find?_some this
  simp only [keysOf, List.mem_map]
  exact ⟨x, hmem, by simpa using hkx⟩

theorem nodup_keysOf_upsertRow (t : List BRow) (r : BRow)
    (h : (keysOf t).Nodup) : (keysOf (upsertRow t r)).Nodup := by
  by_cases hc : containsKey t (rkey r)
  · rw [keysOf_upsertRow_of_contains t r hc]; exact h
  · have hc' : containsKey t (rkey r) = false := by simpa using hc
    unfold upsertRow
    rw [if_neg hc]
    unfold keysOf
    rw [List.map_append]
    apply List.Nodup.append h (by simp)
    intro k hk1 hk2
    simp only [List.map_cons, List.map_nil, List.mem_cons,
      List.not_mem_nil, or_false] at hk2
    subst hk2
    exact absurd ((mem_keysOf t (rkey r)).mp hk1) (by simp [hc'])

theorem nodup_keysOf_write (t : List BRow) (b : List BRow)
    (h : (keysOf t).Nodup) :
    (keysOf (write_data_to_db t b)).Nodup := by
  induction b generalizing t with
  | nil => exact h
  | cons r b ih =>
      exact ih (upsertRow t r) (nodup_keysOf_upsertRow t r h)

theorem table_ext (t u : List BRow) (hn : (keysOf t).Nodup)
    (hk : keysOf t = keysOf u)
    (hf : ∀ k, findKey t k = findKey u k) : t = u := by
  induction t generalizing u with
  | nil =>
      cases u with
      | nil => rfl
      | cons y u => simp [keysOf] at hk
  | cons x t ih =>
      cases u with
      | nil => simp [keysOf] at hk
      | cons y u =>
          have hkc : rkey x = rkey y ∧ keysOf t = keysOf u := by
            simpa [keysOf] using hk
          have hxy : x = y := by
            have h1 := hf (rkey x)
            rw [findKey_cons, findKey_cons, if_pos rfl,
              if_pos hkc.1.symm] at h1
            exact Option.some.inj h1
          subst hxy
          have hpair : (∀ z ∈ t, ¬rkey z = rkey x) ∧
              (List.map rkey t).Nodup := by
            simpa [keysOf] using hn
          have hnx : rkey x ∉ keysOf t := by
            simp only [keysOf, List.mem_map, not_exists]
            rintro z ⟨hz, hzk⟩
            exact hpair.1 z hz hzk
          congr 1
          apply ih u hpair.2 hkc.2
          intro k
          by_cases hkx : k = rkey x
          · subst hkx
            rw [(findKey_eq_none_iff t (rkey x)).mpr hnx,
              (findKey_eq_none_iff u (rkey x)).mpr (hkc.2 ▸ hnx)]
          · have h1 := hf k
            rw [findKey_cons, findKey_cons,
              if_neg (fun h => hkx h.symm),
              if_neg (fun h => hkx h.symm)] at h1
            exact h1

/-! ## Claim theorems -/

/-- C3: writing the same batch twice in succession to an instrument
table whose rows have pairwise distinct (DATE, INTERVAL) keys leaves
the table in exactly the same state (hence the same row count and the
same values) as writing it once — the upsert keyed by (DATE, INTERVAL)
is idempotent. -/
theorem write_batch_twice_idempotent (t b : List BRow)
    (h : (keysOf t).Nodup) :
    write_data_to_db (write_data_to_db t b) b = write_data_to_db t b := by
  apply table_ext _ _ (nodup_keysOf_write _ b (nodup_keysOf_write t b h))
  · exact keysOf_write_of_covered _ b
      (fun r hr => containsKey_write_self t b r hr)
  · intro k
    rw [findKey_write, findKey_write]
    rcases lastWith b k with _ | x <;> rfl

/-- Witness for C3 at a concrete table and batch (the batch writes one
existing key twice and one fresh key). -/
theorem write_batch_twice_idempotent_witness :
    (keysOf [⟨1, "1d", ["a"]⟩]).Nodup ∧
      write_data_to_db
          (write_data_to_db [⟨1, "1d", ["a"]⟩]
            [⟨1, "1d", ["b"]⟩, ⟨2, "1d", ["c"]⟩, ⟨2, "1d", ["d"]⟩])
          [⟨1, "1d", ["b"]⟩, ⟨2, "1d", ["c"]⟩, ⟨2, "1d", ["d"]⟩] =
        write_data_to_db [⟨1, "1d", ["a"]⟩]
          [⟨1, "1d", ["b"]⟩, ⟨2, "1d", ["c"]⟩, ⟨2, "1d", ["d"]⟩] :=
  ⟨by decide, write_batch_twice_idempotent _ _ (by decide)⟩

/-- C10: the coverage consulted by the fetch decision is always the
stored coverage of the default "1d" interval, whatever interval the
pipeline is configured with — the `get_ticker_date_range` call in
`_fetch_data` omits the interval argument.  The second conjunct shows
a store where this matters: "1h" bars exist, yet the consulted
coverage is the (empty) "1d" coverage. -/
theorem coverage_query_uses_default_interval :
    (∀ (db : DBState) (ticker cfgIval : String),
        coverageConsulted db ticker cfgIval =
          get_ticker_date_range db ticker "1d") ∧
      (coverageConsulted demoDB "SPY" "1h" = (none, none) ∧
        get_ticker_date_range demoDB "SPY" "1h" = (some 5, some 5)) :=
  ⟨fun _ _ _ => rfl, by decide, by decide⟩

/-- C2: for an instrument with stored coverage (dbMin, dbMax), the
orchestrator serves it from the store and keeps it off the external
fetch list exactly when the requested start (if any) does not precede
dbMin and the requested end does not exceed dbMax plus the one-day
buffer; it lands on the external fetch list exactly when the requested
start precedes dbMin or the requested end exceeds dbMax by more than
one day. -/
theorem fetch_decision_covered (covOf : String → Option Nat × Option Nat)
    (tickers : List String) (reqStart : Option Nat) (reqEnd : Nat)
    (tk : String) (dbMin dbMax : Nat)
    (hmem : tk ∈ tickers) (hcov : covOf tk = (some dbMin, some dbMax)) :
    ((tk ∈ servedFromStore covOf tickers reqStart reqEnd ∧
        tk ∉ tickersToFetch covOf tickers reqStart reqEnd) ↔
      ((∀ s, reqStart = some s → dbMin ≤ s) ∧ reqEnd ≤ dbMax + 1)) ∧
    (tk ∈ tickersToFetch covOf tickers reqStart reqEnd ↔
      ((∃ s, reqStart = some s ∧ s < dbMin) ∨ dbMax + 1 < reqEnd)) := by
  rcases reqStart with _ | s <;>
    simp [servedFromStore, tickersToFetch, List.mem_filter, hmem,
      needsFetch, hcov] <;> omega

/-- Witness for C2: coverage days 10-20, request for days 12-21 (one
day past the stored max, inside the grace buffer) is served from the
store and not fetched. -/
theorem fetch_decision_covered_witness :
    (("AAPL" ∈ servedFromStore (fun _ => (some 10, some 20)) ["AAPL"]
          (some 12) 21 ∧
        "AAPL" ∉ tickersToFetch (fun _ => (some 10, some 20)) ["AAPL"]
          (some 12) 21) ↔
      ((∀ s, (some 12 : Option Nat) = some s → 10 ≤ s) ∧
        21 ≤ 20 + 1)) ∧
    ("AAPL" ∈ tickersToFetch (fun _ => (some 10, some 20)) ["AAPL"]
        (some 12) 21 ↔
      ((∃ s, (some 12 : Option Nat) = some s ∧ s < 10) ∨ 20 + 1 < 21)) :=
  fetch_decision_covered (fun _ => (some 10, some 20)) ["AAPL"]
    (some 12) 21 "AAPL" 10 20 (by decide) rfl

/-- C8 counterexample: constructing the pipeline object with the
unknown scraper type "bogus" raises nothing — construction succeeds
and returns the stored configuration, contradicting the claim that an
unknown scraper type is rejected at construction time. -/
theorem construction_skips_validation :
    baseSetupInit ["AAPL"] "bogus" none none none "1d" =
      .ok { tickers := ["AAPL"], scraper_type := "bogus",
            api_key := none, start_date := none, end_date := none,
            ival := "1d" } := rfl

/-- C8 (amended): construction never fails; the unknown-scraper and
missing-credential errors are raised inside `_fetch_data`, and only
when at least one ticker actually needs fetching — when everything is
served from the store, even a bogus configuration raises nothing. -/
theorem config_errors_raised_at_fetch :
    (∀ (tickers : List String) (ty : String) (key : Option String)
        (sd ed : Option Nat) (iv : String),
        (baseSetupInit tickers ty key sd ed iv).isOk = true) ∧
    (∀ (cfg : SetupConfig) (covOf : String → Option Nat × Option Nat)
        (reqEnd : Nat),
        tickersToFetch covOf cfg.tickers cfg.start_date reqEnd ≠ [] →
        lowerStr cfg.scraper_type ≠ "yfinance" →
        lowerStr cfg.scraper_type ≠ "alphavantage" →
        fetchDataDispatch cfg covOf reqEnd =
          .error "scraper_type must be yfinance or alphavantage") ∧
    (∀ (cfg : SetupConfig) (covOf : String → Option Nat × Option Nat)
        (reqEnd : Nat),
        tickersToFetch covOf cfg.tickers cfg.start_date reqEnd ≠ [] →
        lowerStr cfg.scraper_type = "alphavantage" →
        (cfg.api_key = none ∨ cfg.api_key = some "") →
        fetchDataDispatch cfg covOf reqEnd =
          .error "API key required for AlphaVantage scraper") ∧
    (∀ (cfg : SetupConfig) (covOf : String → Option Nat × Option Nat)
        (reqEnd : Nat),
        tickersToFetch covOf cfg.tickers cfg.start_date reqEnd = [] →
        fetchDataDispatch cfg covOf reqEnd = .ok []) := by
  refine ⟨fun _ _ _ _ _ _ => rfl, ?_, ?_, ?_⟩
  · intro cfg covOf reqEnd hplan hy ha
    rw [fetchDataDispatch]
    simp only [List.isEmpty_iff]
    rw [if_neg hplan]
    unfold selectScraper
    rw [if_neg hy, if_neg ha]
  · intro cfg covOf reqEnd hplan ha hkey
    rw [fetchDataDispatch]
    simp only [List.isEmpty_iff]
    rw [if_neg hplan]
    unfold selectScraper
    have hy : lowerStr cfg.scraper_type ≠ "yfinance" := by
      rw [ha]; decide
    rw [if_neg hy, if_pos ha]
    rcases hkey with hk | hk <;> rw [hk]
    rfl
  · intro cfg covOf reqEnd hplan
    rw [fetchDataDispatch]
    simp only [List.isEmpty_iff]
    rw [if_pos hplan]

/-- Witness for the amended C8: a bogus scraper type passes
construction untouched, and the error surfaces in the fetch phase once
a ticker needs data. -/
theorem config_errors_raised_at_fetch_witness :
    (baseSetupInit ["AAPL"] "bogus" none none none "1d").isOk = true ∧
      fetchDataDispatch cfgBogus covEmpty 5 =
        .error "scraper_type must be yfinance or alphavantage" :=
  ⟨config_errors_raised_at_fetch.1 ["AAPL"] "bogus" none none none "1d",
    config_errors_raised_at_fetch.2.1 cfgBogus covEmpty 5
      (by decide) (by decide) (by decide)⟩

/-! ## Helper lemmas: feature merge -/

theorem fdates_mergeOuter (l r : FTable) :
    fdates (mergeOuter l r) =
      fdates l ++
        (r.rows.filter (fun p => !(fdates l).contains p.1)).map
          Prod.fst := by
  unfold fdates mergeOuter
  rw [List.map_append, List.map_map, List.map_map]
  congr 1

theorem mem_fdates_mergeOuter (l r : FTable) (d : Nat) :
    d ∈ fdates (mergeOuter l r) ↔ d ∈ fdates l ∨ d ∈ fdates r := by
  rw [fdates_mergeOuter, List.mem_append]
  by_cases hl : d ∈ fdates l
  · simp [hl]
  · simp only [hl, false_or]
    simp only [List.mem_map, List.mem_filter, fdates]
    constructor
    · rintro ⟨p, ⟨hp, -⟩, hd⟩
      exact ⟨p, hp, hd⟩
    · rintro ⟨p, hp, hd⟩
      refine ⟨p, ⟨hp, ?_⟩, hd⟩
      subst hd
      simpa [fdates] using hl

theorem nodup_fdates_mergeOuter (l r : FTable)
    (hl : (fdates l).Nodup) (hr : (fdates r).Nodup) :
    (fdates (mergeOuter l r)).Nodup := by
  rw [fdates_mergeOuter]
  refine List.Nodup.append ?h1 ?h2 ?h3
  · exact hl
  · exact List.Nodup.sublist
      ((List.filter_sublist r.rows).map Prod.fst) hr
  · intro a ha hb
    simp only [List.mem_map, List.mem_filter] at hb
    rcases hb with ⟨p, ⟨-, hc⟩, hd⟩
    subst hd
    simp at hc
    exact hc ha

theorem mem_fdates_foldl (t : FTable) (ts : List FTable) (d : Nat) :
    d ∈ fdates (ts.foldl mergeOuter t) ↔
      d ∈ fdates t ∨ ∃ u ∈ ts, d ∈ fdates u := by
  induction ts generalizing t with
  | nil => simp
  | cons u ts ih =>
      rw [List.foldl_cons, ih, mem_fdates_mergeOuter]
      simp [or_assoc]

theorem nodup_fdates_foldl (t : FTable) (ts : List FTable)
    (ht : (fdates t).Nodup) (hts : ∀ u ∈ ts, (fdates u).Nodup) :
    (fdates (ts.foldl mergeOuter t)).Nodup := by
  induction ts generalizing t with
  | nil => exact ht
  | cons u ts ih =>
      exact ih (mergeOuter t u)
        (nodup_fdates_mergeOuter t u ht (hts u (List.mem_cons_self u ts)))
        (fun v hv => hts v (List.mem_cons_of_mem u hv))

/-- C5: the merged feature table built by `build_features` has exactly
one row per timestamp in the union of the DATE values of all component
indicator outputs (full outer join on DATE, not the intersection): a
DATE is present in the merge iff it is present in some component, and
when each component has unique DATEs so does the merge. -/
theorem build_features_outer_join (tables : List FTable) (m : FTable)
    (hne : build_features_merge tables = some m)
    (hnd : ∀ u ∈ tables, (fdates u).Nodup) :
    (∀ d, d ∈ fdates m ↔ ∃ u ∈ tables, d ∈ fdates u) ∧
      (fdates m).Nodup := by
  cases tables with
  | nil => simp [build_features_merge] at hne
  | cons t ts =>
      have hm : m = ts.foldl mergeOuter t := by
        have : some (ts.foldl mergeOuter t) = some m := hne
        exact (Option.some.inj this).symm
      subst hm
      constructor
      · intro d
        rw [mem_fdates_foldl]
        simp
      · exact nodup_fdates_foldl t ts
          (hnd t (List.mem_cons_self t ts))
          (fun v hv => hnd v (List.mem_cons_of_mem t hv))

/-- Witness for C5 at two concrete single-column indicator tables with
overlapping but unequal DATE axes. -/
theorem build_features_outer_join_witness :
    (∀ d, d ∈ fdates ⟨2, [(1, [some 1, none]), (2, [some 2, some 5]),
          (3, [none, none])]⟩ ↔
        ∃ u ∈ [(⟨1, [(1, [some 1]), (2, [some 2])]⟩ : FTable),
            ⟨1, [(2, [some 5]), (3, [none])]⟩],
          d ∈ fdates u) ∧
      (fdates (⟨2, [(1, [some 1, none]), (2, [some 2, some 5]),
          (3, [none, none])]⟩ : FTable)).Nodup :=
  build_features_outer_join
    [⟨1, [(1, [some 1]), (2, [some 2])]⟩, ⟨1, [(2, [some 5]), (3, [none])]⟩]
    ⟨2, [(1, [some 1, none]), (2, [some 2, some 5]), (3, [none, none])]⟩
    (by decide) (by decide)

/-! ## Helper lemmas: estimator -/

/-- Sample variance is nonnegative (zero on lists of length at most
one, where pandas would produce NaN). -/
theorem svar_nonneg (l : List ℚ) : 0 ≤ svar l := by
  rcases l with _ | ⟨x, _ | ⟨y, rest⟩⟩
  · simp [svar, meanQ]
  · norm_num [svar, meanQ]
  · unfold svar
    apply div_nonneg
    · apply List.sum_nonneg
      intro q hq
      simp only [List.mem_map] at hq
      rcases hq with ⟨a, -, rfl⟩
      positivity
    · have hlen : (((x :: y :: rest).length : ℚ)) = (rest.length : ℚ) + 2 := by
        push_cast [List.length_cons]
        ring
      rw [hlen]
      have h0 : (0:ℚ) ≤ (rest.length : ℚ) := Nat.cast_nonneg _
      linarith

/-- Inversion of a successful estimator run: both guards passed and the
result record is exactly the one assembled from the embedded
intermediate definitions. -/
theorem calc_ok_fields (sR bR : RSeries) (freq : String) (tol : ℚ)
    (r : AlphaBetaResult)
    (h : calculate_alpha_beta sR bR freq tol = .ok r) :
    10 ≤ (idxOf sR bR).length ∧ varFull sR bR ≠ 0 ∧
      r = { beta := betaFinal sR bR tol,
            alpha := alphaPerPeriod sR bR tol * periodsPerYear freq,
            alpha_per_period := alphaPerPeriod sR bR tol,
            n_bars_used := nBars sR bR tol,
            required_n := requiredN sR bR tol,
            beta_full := betaFull sR bR } := by
  unfold calculate_alpha_beta at h
  by_cases h10 : (idxOf sR bR).length < 10
  · rw [if_pos h10] at h; cases h
  · rw [if_neg h10] at h
    by_cases hv : varFull sR bR = 0
    · rw [if_pos hv] at h; cases h
    · rw [if_neg hv] at h
      exact ⟨not_lt.mp h10, hv, (Except.ok.inj h).symm⟩

/-- The caller-supplied tolerance enters `target_se` as a positive
multiple (by 1 in the small-beta branch, by the absolute full-sample
beta otherwise). -/
theorem targetSe_mul (sR bR : RSeries) (tol : ℚ) :
    targetSe sR bR tol =
      tol * (if |betaFull sR bR| < 1 / 1000000 then 1
             else |betaFull sR bR|) := by
  by_cases hβ : |betaFull sR bR| < 1 / 1000000
  · simp [targetSe, hβ]
  · simp [targetSe, hβ]

set_option maxRecDepth 100000 in
unseal Rat.add Rat.mul Rat.inv Rat.sub in
/-- C4 counterexample: a constant benchmark whose overlap has only 5
observations yields a null result with the insufficient-data
diagnostic, not the zero-variance diagnostic, even though the
overlapping benchmark returns have variance exactly zero. -/
theorem zero_variance_below_min_overlap :
    calculate_alpha_beta (mkSeries [1, 2, 3, 4, 5])
        (mkSeries [2, 2, 2, 2, 2]) "D" (1 / 5) =
        .error "insufficient data" ∧
      svar (fullX (mkSeries [1, 2, 3, 4, 5])
        (mkSeries [2, 2, 2, 2, 2])) = 0 ∧
      "insufficient data" ≠ "Benchmark variance is 0." :=
  ⟨by decide, by decide, by decide⟩

/-- C4 (amended): for every pair of series with at least 10
overlapping return observations whose benchmark variance is exactly
zero, the estimator returns the null result with the zero-variance
diagnostic (and, being a total function, raises nothing); below 10
overlapping observations the null result carries the insufficient-data
diagnostic instead. -/
theorem zero_variance_null_result (sR bR : RSeries) (freq : String)
    (tol : ℚ) (h10 : 10 ≤ (idxOf sR bR).length)
    (hv : varFull sR bR = 0) :
    calculate_alpha_beta sR bR freq tol =
      .error "Benchmark variance is 0." := by
  unfold calculate_alpha_beta
  rw [if_neg (not_lt.mpr h10), if_pos hv]

set_option maxRecDepth 100000 in
unseal Rat.add Rat.mul Rat.inv Rat.sub in
/-- Witness for the amended C4: a 10-bar constant benchmark. -/
theorem zero_variance_null_result_witness :
    calculate_alpha_beta
        (mkSeries [1, 2, 3, 4, 5, 6, 7, 8, 9, 10])
        (mkSeries [3, 3, 3, 3, 3, 3, 3, 3, 3, 3]) "D" (1 / 5) =
      .error "Benchmark variance is 0." :=
  zero_variance_null_result _ _ "D" (1 / 5) (by decide) (by decide)

set_option maxRecDepth 100000 in
unseal Rat.add Rat.mul Rat.inv Rat.sub in
/-- C7 counterexample: an overlap of 15 observations (inside [10, 30))
produces a non-null result whose reported `n_bars_used` is 30 — never
below 30, because the `max(30, ...)` floor is applied even when fewer
rows exist. -/
theorem short_overlap_reports_thirty :
    (idxOf (mkSeries yShort) (mkSeries xShort)).length = 15 ∧
      calculate_alpha_beta (mkSeries yShort) (mkSeries xShort) "D"
          (1 / 5) =
        .ok { beta := -1 / 14, alpha := 144, alpha_per_period := 4 / 7,
              n_bars_used := 30, required_n := 4875,
              beta_full := -1 / 14 } :=
  ⟨by decide, by decide⟩

/-- C7 (amended): an overlap below 10 observations yields the null
result; an overlap of at least 10 with nonzero benchmark variance
proceeds to a non-null result (the 10-29 band only warns); but the
reported `n_bars_used` of every non-null result is at least 30 — it is
never below 30, even when the overlap is shorter. -/
theorem short_overlap_policy :
    (∀ (sR bR : RSeries) (freq : String) (tol : ℚ),
        (idxOf sR bR).length < 10 →
        calculate_alpha_beta sR bR freq tol =
          .error "insufficient data") ∧
    (∀ (sR bR : RSeries) (freq : String) (tol : ℚ),
        10 ≤ (idxOf sR bR).length → varFull sR bR ≠ 0 →
        (calculate_alpha_beta sR bR freq tol).isOk = true) ∧
    (∀ (sR bR : RSeries) (freq : String) (tol : ℚ)
        (r : AlphaBetaResult),
        calculate_alpha_beta sR bR freq tol = .ok r →
        30 ≤ r.n_bars_used) := by
  refine ⟨?_, ?_, ?_⟩
  · intro sR bR freq tol h
    unfold calculate_alpha_beta
    rw [if_pos h]
  · intro sR bR freq tol h10 hv
    unfold calculate_alpha_beta
    rw [if_neg (not_lt.mpr h10), if_neg hv]
    rfl
  · intro sR bR freq tol r h
    obtain ⟨-, -, rfl⟩ := calc_ok_fields sR bR freq tol r h
    exact le_max_left 30 _

set_option maxRecDepth 100000 in
unseal Rat.add Rat.mul Rat.inv Rat.sub in
/-- Witness for the amended C7 at a 2-bar overlap, a 15-bar overlap
and its concrete non-null result. -/
theorem short_overlap_policy_witness :
    calculate_alpha_beta (mkSeries [1, 2]) (mkSeries [1, 2]) "D"
        (1 / 5) = .error "insufficient data" ∧
      (calculate_alpha_beta (mkSeries yShort) (mkSeries xShort) "D"
        (1 / 5)).isOk = true ∧
      30 ≤ ({ beta := -1 / 14, alpha := 144, alpha_per_period := 4 / 7,
              n_bars_used := 30, required_n := 4875,
              beta_full := -1 / 14 } : AlphaBetaResult).n_bars_used :=
  ⟨short_overlap_policy.1 (mkSeries [1, 2]) (mkSeries [1, 2]) "D"
      (1 / 5) (by decide),
    short_overlap_policy.2.1 (mkSeries yShort) (mkSeries xShort) "D"
      (1 / 5) (by decide) (by decide),
    short_overlap_policy.2.2 (mkSeries yShort) (mkSeries xShort) "D"
      (1 / 5) _ (by decide)⟩

set_option maxRecDepth 100000 in
unseal Rat.add Rat.mul Rat.inv Rat.sub in
/-- C1 counterexample: on a 15-observation overlap the non-null result
reports `n_bars_used = 30`, strictly larger than the number of
overlapping return observations — the clamp is `max(30, min(overlap,
required_n))`, not a clamp into `[30, overlap]`. -/
theorem n_bars_used_exceeds_overlap :
    (idxOf (mkSeries yShort) (mkSeries xShort)).length = 15 ∧
      calculate_alpha_beta (mkSeries yShort) (mkSeries xShort) "D"
          (1 / 5) =
        .ok { beta := -1 / 14, alpha := 144, alpha_per_period := 4 / 7,
              n_bars_used := 30, required_n := 4875,
              beta_full := -1 / 14 } ∧
      15 < ({ beta := -1 / 14, alpha := 144, alpha_per_period := 4 / 7,
              n_bars_used := 30, required_n := 4875,
              beta_full := -1 / 14 } : AlphaBetaResult).n_bars_used :=
  ⟨by decide, by decide, by decide⟩

/-- C1 (amended): for every non-null result whose overlap has at least
30 observations and whose computed `target_se` is at least the 1e-9
guard, `required_n` is the floored standard-error formula (stated with
variances: `(sigma_eps / (sigma_m * target_se))^2 =
varEps / (varFull * target_se^2)` exactly), `n_bars_used =
max(30, min(overlap, required_n))` lies in `[30, overlap]`, and the
final beta and alpha are recomputed on exactly the most recent
`n_bars_used` observations of the overlap.  (When the overlap is
below 30, `n_bars_used` is reported as 30 and may exceed the overlap,
as the counterexample shows.) -/
theorem adaptive_window_formula (sR bR : RSeries) (freq : String)
    (tol : ℚ) (r : AlphaBetaResult)
    (hok : calculate_alpha_beta sR bR freq tol = .ok r)
    (hlen : 30 ≤ (idxOf sR bR).length)
    (hse : 1 / 1000000000 ≤ targetSe sR bR tol) :
    r.required_n =
        (⌊varEps sR bR /
          (varFull sR bR * targetSe sR bR tol ^ 2)⌋).toNat ∧
      r.n_bars_used = max 30 (min (idxOf sR bR).length r.required_n) ∧
      30 ≤ r.n_bars_used ∧
      r.n_bars_used ≤ (idxOf sR bR).length ∧
      (lastN (fullX sR bR) r.n_bars_used).length = r.n_bars_used ∧
      r.beta = regressBeta (lastN (fullY sR bR) r.n_bars_used)
        (lastN (fullX sR bR) r.n_bars_used) ∧
      r.alpha_per_period =
        meanQ (lastN (fullY sR bR) r.n_bars_used) -
          r.beta * meanQ (lastN (fullX sR bR) r.n_bars_used) := by
  obtain ⟨h10, hv, rfl⟩ := calc_ok_fields sR bR freq tol r hok
  have hflen : (fullX sR bR).length = (idxOf sR bR).length := by
    simp [fullX]
  have hreq : requiredN sR bR tol =
      (⌊varEps sR bR /
        (varFull sR bR * targetSe sR bR tol ^ 2)⌋).toNat := by
    unfold requiredN
    rw [if_neg (not_lt.mpr hse)]
  have hnb : nBars sR bR tol =
      max 30 (min (idxOf sR bR).length (requiredN sR bR tol)) := by
    unfold nBars
    rw [hflen]
  have hle : nBars sR bR tol ≤ (idxOf sR bR).length := by
    rw [hnb]; omega
  refine ⟨hreq, ?_, le_max_left 30 _, hle, ?_, rfl, rfl⟩
  · show nBars sR bR tol = _
    rw [hnb, hreq]
  · show (lastN (fullX sR bR) (nBars sR bR tol)).length =
      nBars sR bR tol
    unfold lastN
    rw [List.length_drop, hflen]
    omega

set_option maxRecDepth 100000 in
unseal Rat.add Rat.mul Rat.inv Rat.sub in
/-- Witness for the amended C1 on a 31-observation overlap with a
perfect linear fit. -/
theorem adaptive_window_formula_witness :
    rConst31.required_n =
        (⌊varEps sConst31 sConst31 /
          (varFull sConst31 sConst31 *
            targetSe sConst31 sConst31 (1 / 5) ^ 2)⌋).toNat ∧
      rConst31.n_bars_used =
        max 30 (min (idxOf sConst31 sConst31).length
          rConst31.required_n) ∧
      30 ≤ rConst31.n_bars_used ∧
      rConst31.n_bars_used ≤ (idxOf sConst31 sConst31).length ∧
      (lastN (fullX sConst31 sConst31)
        rConst31.n_bars_used).length = rConst31.n_bars_used ∧
      rConst31.beta =
        regressBeta (lastN (fullY sConst31 sConst31)
            rConst31.n_bars_used)
          (lastN (fullX sConst31 sConst31) rConst31.n_bars_used) ∧
      rConst31.alpha_per_period =
        meanQ (lastN (fullY sConst31 sConst31)
            rConst31.n_bars_used) -
          rConst31.beta *
            meanQ (lastN (fullX sConst31 sConst31)
              rConst31.n_bars_used) :=
  adaptive_window_formula sConst31 sConst31 "D" (1 / 5) rConst31
    (by decide) (by decide) (by decide)

set_option maxRecDepth 100000 in
unseal Rat.add Rat.mul Rat.inv Rat.sub in
/-- C6 counterexample: on a fixed non-degenerate pair of series
(full-sample beta 1, residual variance equal to benchmark variance),
the tolerances 3/5 and 7/10 both yield `required_n = 2` — the returned
`required_n` does not strictly decrease when the tolerance
increases, because the formula value is truncated to an integer. -/
theorem required_n_plateau :
    (3 : ℚ) / 5 < 7 / 10 ∧
      calculate_alpha_beta (mkSeries yAlt) (mkSeries xAlt) "D"
          (3 / 5) =
        .ok { beta := 1, alpha := 126, alpha_per_period := 1 / 2,
              n_bars_used := 30, required_n := 2, beta_full := 1 } ∧
      calculate_alpha_beta (mkSeries yAlt) (mkSeries xAlt) "D"
          (7 / 10) =
        .ok { beta := 1, alpha := 126, alpha_per_period := 1 / 2,
              n_bars_used := 30, required_n := 2, beta_full := 1 } :=
  ⟨by decide, by decide, by decide⟩

/-- C6 (amended): for a fixed pair of series, the `required_n`
returned by `calculate_alpha_beta` is non-increasing in the target
relative error tolerance (the pre-truncation formula value strictly
decreases, but integer truncation can keep `required_n` constant), as
long as the smaller tolerance keeps `target_se` at or above the 1e-9
guard. -/
theorem required_n_antitone (sR bR : RSeries) (freq : String)
    (tol1 tol2 : ℚ) (r1 r2 : AlphaBetaResult)
    (h1 : calculate_alpha_beta sR bR freq tol1 = .ok r1)
    (h2 : calculate_alpha_beta sR bR freq tol2 = .ok r2)
    (h0 : 0 < tol1) (h12 : tol1 ≤ tol2)
    (hse : 1 / 1000000000 ≤ targetSe sR bR tol1) :
    r2.required_n ≤ r1.required_n := by
  obtain ⟨-, -, rfl⟩ := calc_ok_fields sR bR freq tol1 r1 h1
  obtain ⟨-, -, rfl⟩ := calc_ok_fields sR bR freq tol2 r2 h2
  show requiredN sR bR tol2 ≤ requiredN sR bR tol1
  have hmpos : 0 < (if |betaFull sR bR| < 1 / 1000000 then (1 : ℚ)
      else |betaFull sR bR|) := by
    split
    · norm_num
    · rename_i hβ
      have hβ' := not_lt.mp hβ
      linarith
  have h1pos : 0 < targetSe sR bR tol1 := by
    rw [targetSe_mul]
    positivity
  have hmono : targetSe sR bR tol1 ≤ targetSe sR bR tol2 := by
    rw [targetSe_mul, targetSe_mul]
    exact mul_le_mul_of_nonneg_right h12 (le_of_lt hmpos)
  have hse2 : 1 / 1000000000 ≤ targetSe sR bR tol2 :=
    le_trans hse hmono
  unfold requiredN
  rw [if_neg (not_lt.mpr hse), if_neg (not_lt.mpr hse2)]
  apply Int.toNat_le_toNat
  apply Int.floor_le_floor
  by_cases hvz : varFull sR bR = 0
  · rw [hvz]
    simp
  · have hvpos : 0 < varFull sR bR :=
      lt_of_le_of_ne (svar_nonneg _) (Ne.symm hvz)
    have hte : targetSe sR bR tol1 ^ 2 ≤ targetSe sR bR tol2 ^ 2 :=
      pow_le_pow_left₀ (le_of_lt h1pos) hmono 2
    have hd : varFull sR bR * targetSe sR bR tol1 ^ 2 ≤
        varFull sR bR * targetSe sR bR tol2 ^ 2 :=
      mul_le_mul_of_nonneg_left hte (le_of_lt hvpos)
    exact div_le_div_of_nonneg_left (svar_nonneg _)
      (by positivity) hd

set_option maxRecDepth 100000 in
unseal Rat.add Rat.mul Rat.inv Rat.sub in
/-- Witness for the amended C6 at the plateau tolerances 3/5 and
7/10. -/
theorem required_n_antitone_witness :
    ({ beta := 1, alpha := 126, alpha_per_period := 1 / 2,
       n_bars_used := 30, required_n := 2,
       beta_full := 1 } : AlphaBetaResult).required_n ≤
      ({ beta := 1, alpha := 126, alpha_per_period := 1 / 2,
         n_bars_used := 30, required_n := 2,
         beta_full := 1 } : AlphaBetaResult).required_n :=
  required_n_antitone (mkSeries yAlt) (mkSeries xAlt) "D"
    (3 / 5) (7 / 10) _ _ (by decide) (by decide) (by decide)
    (by decide) (by decide)

/-- C9: when the full-overlap benchmark variance is nonzero (and at
least 10 observations overlap) but the benchmark variance over the
final trailing window is exactly zero, the estimator does not return
null: it returns the complete record with `beta_final = 0` and the
per-period alpha computed with beta 0, i.e. the mean of the final
subject window. -/
theorem trailing_zero_variance_beta_zero (sR bR : RSeries)
    (freq : String) (tol : ℚ)
    (h10 : 10 ≤ (idxOf sR bR).length)
    (hv : varFull sR bR ≠ 0)
    (hf : varFinal sR bR tol = 0) :
    calculate_alpha_beta sR bR freq tol =
      .ok { beta := 0,
            alpha := meanQ (finalY sR bR tol) * periodsPerYear freq,
            alpha_per_period := meanQ (finalY sR bR tol),
            n_bars_used := nBars sR bR tol,
            required_n := requiredN sR bR tol,
            beta_full := betaFull sR bR } := by
  have hb : betaFinal sR bR tol = 0 := by
    unfold betaFinal
    rw [if_pos hf]
  have ha : alphaPerPeriod sR bR tol = meanQ (finalY sR bR tol) := by
    unfold alphaPerPeriod
    rw [hb]
    ring
  unfold calculate_alpha_beta
  rw [if_neg (not_lt.mpr h10), if_neg hv, hb, ha]

set_option maxRecDepth 100000 in
unseal Rat.add Rat.mul Rat.inv Rat.sub in
/-- Witness for C9: 31 observations whose last 30 benchmark returns
are constant while the first differs; the subject equals the
benchmark, so the trailing window is the constant block. -/
theorem trailing_zero_variance_beta_zero_witness :
    calculate_alpha_beta sConst31 sConst31 "D" (1 / 5) =
      .ok { beta := 0,
            alpha := meanQ (finalY sConst31 sConst31 (1 / 5)) *
              periodsPerYear "D",
            alpha_per_period := meanQ (finalY sConst31 sConst31 (1 / 5)),
            n_bars_used := nBars sConst31 sConst31 (1 / 5),
            required_n := requiredN sConst31 sConst31 (1 / 5),
            beta_full := betaFull sConst31 sConst31 } :=
  trailing_zero_variance_beta_zero sConst31 sConst31 "D" (1 / 5)
    (by decide) (by decide) (by decide)
